import Mathlib

/-!
Verification development for the flying_game repository.

The Flight Dynamics Model (src/Glider.js) is embedded over the real numbers:
JavaScript doubles are modelled as exact reals, Math.sqrt / Math.sin /
Math.cos / Math.acos / Math.atan2 as their real counterparts.  The heightmap
terrain (LocalTerrainProvider.sampleHeightmap / getHeightAt) only uses field
arithmetic, Math.floor, Math.min and Math.max, so it is embedded generically
over any linear ordered field with a floor, and is executable at rationals.
The InputManager is embedded over the rationals.
-/

set_option maxHeartbeats 1600000

namespace FlyingGame

/-- Component-wise model of THREE.Vector3 as used by the glider code. -/
@[ext]
structure Vec3 where
  x : ℝ
  y : ℝ
  z : ℝ

/-- THREE.Vector3.add. -/
def add3 (a b : Vec3) : Vec3 := ⟨a.x + b.x, a.y + b.y, a.z + b.z⟩

/-- THREE.Vector3.multiplyScalar. -/
def smul3 (c : ℝ) (v : Vec3) : Vec3 := ⟨c * v.x, c * v.y, c * v.z⟩

/-- THREE.Vector3.dot. -/
def dot3 (a b : Vec3) : ℝ := a.x * b.x + a.y * b.y + a.z * b.z

/-- THREE.Vector3.length: Math.sqrt(x*x + y*y + z*z).  This is what
Glider.getSpeed() returns. -/
noncomputable def speed (v : Vec3) : ℝ := Real.sqrt (v.x ^ 2 + v.y ^ 2 + v.z ^ 2)

/-- THREE.Vector3.normalize: divideScalar(length() || 1), so the zero vector
is left unchanged. -/
noncomputable def normalize3 (v : Vec3) : Vec3 :=
  if speed v = 0 then v else smul3 (1 / speed v) v

/-- Rotation about the X axis (right-handed), as THREE represents it. -/
noncomputable def rotX (t : ℝ) (v : Vec3) : Vec3 :=
  ⟨v.x, v.y * Real.cos t - v.z * Real.sin t, v.y * Real.sin t + v.z * Real.cos t⟩

/-- Rotation about the Y axis. -/
noncomputable def rotY (t : ℝ) (v : Vec3) : Vec3 :=
  ⟨v.x * Real.cos t + v.z * Real.sin t, v.y, -v.x * Real.sin t + v.z * Real.cos t⟩

/-- Rotation about the Z axis. -/
noncomputable def rotZ (t : ℝ) (v : Vec3) : Vec3 :=
  ⟨v.x * Real.cos t - v.y * Real.sin t, v.x * Real.sin t + v.y * Real.cos t, v.z⟩

/-- Vector3.applyQuaternion with the quaternion built by
Quaternion.setFromEuler(new Euler(pitch, yaw, roll, 'YXZ')): the YXZ Euler
order composes as R_Y(yaw) * R_X(pitch) * R_Z(roll). -/
noncomputable def rotate (pitch yaw roll : ℝ) (v : Vec3) : Vec3 :=
  rotY yaw (rotX pitch (rotZ roll v))

/-- Glider state, from the fields set in the Glider constructor (src/Glider.js).
The rotation quaternion is not stored: the code recomputes it from the Euler
angles at the end of every updateRotation call and resets it together with the
angles, so it is always the rotation determined by (pitch, yaw, roll) at the
points where it is read. -/
@[ext]
structure GliderState where
  position : Vec3
  velocity : Vec3
  pitch : ℝ
  roll : ℝ
  yaw : ℝ
  pitchInput : ℝ
  rollInput : ℝ
  crashed : Bool
  debugLift : ℝ
  debugAoA : ℝ

/-- The constructor's initial state: position (0,1000,0), velocity (0,0,-20),
all angles and inputs zero, not crashed. -/
noncomputable def initState : GliderState where
  position := ⟨0, 1000, 0⟩
  velocity := ⟨0, 0, -20⟩
  pitch := 0
  roll := 0
  yaw := 0
  pitchInput := 0
  rollInput := 0
  crashed := false
  debugLift := 0
  debugAoA := 0

/-- Glider.setInput. -/
def setInput (p r : ℝ) (st : GliderState) : GliderState :=
  { st with pitchInput := p, rollInput := r }

/-- Glider.updateRotation (renamed, the behaviour is identical): integrate and
clamp pitch and roll, derive yaw from the banked roll, auto-level roll when
the roll input is inside the 0.1 deadzone. -/
noncomputable def updateOrientation (dt : ℝ) (st : GliderState) : GliderState :=
  let pitch1 := max (-(Real.pi / 3)) (min (Real.pi / 3) (st.pitch + st.pitchInput * 1.5 * dt))
  let roll1 := max (-(Real.pi / 2)) (min (Real.pi / 2) (st.roll + st.rollInput * 2.0 * dt))
  let yaw1 := st.yaw + Real.sin roll1 * 0.5 * speed st.velocity / 20 * dt
  let roll2 := if |st.rollInput| < 0.1 then roll1 * (1 - 0.5 * dt) else roll1
  { st with pitch := pitch1, roll := roll2, yaw := yaw1 }

/-- Forward direction: (0,0,-1) taken through the current orientation. -/
noncomputable def forwardDir (st : GliderState) : Vec3 :=
  rotate st.pitch st.yaw st.roll ⟨0, 0, -1⟩

/-- Local up direction: (0,1,0) taken through the current orientation. -/
noncomputable def upDir (st : GliderState) : Vec3 :=
  rotate st.pitch st.yaw st.roll ⟨0, 1, 0⟩

/-- velocityDir = velocity.clone().normalize(). -/
noncomputable def velocityDir (st : GliderState) : Vec3 := normalize3 st.velocity

/-- angleOfAttack = Math.acos(Math.max(-1, Math.min(1, forward.dot(velocityDir)))). -/
noncomputable def angleOfAttack (st : GliderState) : ℝ :=
  Real.arccos (max (-1) (min 1 (dot3 (forwardDir st) (velocityDir st))))

/-- liftMagnitude = liftCoefficient * speedFactor * pitchFactor * gravity,
with speedFactor = min(speed/30, 1.5) and pitchFactor = cos(pitch). -/
noncomputable def liftMagnitude (st : GliderState) : ℝ :=
  0.8 * min (speed st.velocity / 30) 1.5 * Real.cos st.pitch * 9.81

/-- The velocity increment contributed by lift in one tick: applied only in
the speed > minSpeed (10) branch, along the local up direction, scaled by dt. -/
noncomputable def liftDelta (st : GliderState) (dt : ℝ) : Vec3 :=
  if 10 < speed st.velocity then smul3 (liftMagnitude st * dt) (upDir st) else ⟨0, 0, 0⟩

/-- dragCoeff = baseDrag + (pitch > 0.1 ? pitch*0.05 : 0) + angleOfAttack*0.02. -/
noncomputable def dragCoeff (st : GliderState) : ℝ :=
  0.02 + (if 0.1 < st.pitch then st.pitch * 0.05 else 0) + angleOfAttack st * 0.02

/-- Velocity after the unconditional gravity update: velocity.y -= gravity*dt. -/
noncomputable def afterGravity (st : GliderState) (dt : ℝ) : Vec3 :=
  ⟨st.velocity.x, st.velocity.y - 9.81 * dt, st.velocity.z⟩

/-- Velocity after the lift branch. -/
noncomputable def afterLift (st : GliderState) (dt : ℝ) : Vec3 :=
  add3 (afterGravity st dt) (liftDelta st dt)

/-- Velocity after the drag branch: drag of magnitude speed^2*dragCoeff*dt,
opposite the (start-of-tick) velocity direction, skipped when speed <= 0.1. -/
noncomputable def afterDrag (st : GliderState) (dt : ℝ) : Vec3 :=
  if 0.1 < speed st.velocity then
    add3 (afterLift st dt)
      (smul3 (-(speed st.velocity * speed st.velocity * dragCoeff st * dt)) (velocityDir st))
  else afterLift st dt

/-- Velocity after the dive-boost branch: when pitch < -0.1, the (post-drag)
vertical velocity is negative and the current speed is below maxSpeed, add
|pitch|*0.3*dt*10 along the forward direction. -/
noncomputable def afterDive (st : GliderState) (dt : ℝ) : Vec3 :=
  if st.pitch < -0.1 ∧ (afterDrag st dt).y < 0 ∧ speed (afterDrag st dt) < 80 then
    add3 (afterDrag st dt) (smul3 (|st.pitch| * 0.3 * dt * 10) (forwardDir st))
  else afterDrag st dt

/-- Velocity after the max-speed clamp: if speed > 80, rescale to length 80. -/
noncomputable def newVelocity (st : GliderState) (dt : ℝ) : Vec3 :=
  if 80 < speed (afterDive st dt) then
    smul3 (80 / speed (afterDive st dt)) (afterDive st dt)
  else afterDive st dt

/-- position += velocity * dt, with the fully updated velocity. -/
noncomputable def newPosition (st : GliderState) (dt : ℝ) : Vec3 :=
  add3 st.position (smul3 dt (newVelocity st dt))

/-- Glider.updatePhysics: gravity, lift, drag, dive boost, speed clamp,
position integration, then the ground check position.y < 0, which calls
crash(): set the crashed flag and zero the velocity.  Note the check compares
against the constant 0, not a terrain height: the Glider never stores the
terrain provider that main.js passes to its constructor. -/
noncomputable def updatePhysics (dt : ℝ) (st : GliderState) : GliderState :=
  { st with
    position := newPosition st dt
    velocity := if (newPosition st dt).y < 0 then ⟨0, 0, 0⟩ else newVelocity st dt
    crashed := if (newPosition st dt).y < 0 then true else st.crashed
    debugLift := if 10 < speed st.velocity then liftMagnitude st else 0
    debugAoA := angleOfAttack st * 180 / Real.pi }

/-- Glider.update: early return when crashed, clamp dt to at most 0.1, then
updateRotation followed by updatePhysics. -/
noncomputable def update (deltaTime : ℝ) (st : GliderState) : GliderState :=
  if st.crashed then st
  else updatePhysics (min deltaTime 0.1) (updateOrientation (min deltaTime 0.1) st)

/-- Glider.reset: restore the initial position, velocity and angles and clear
the crashed flag (the control inputs and debug values are not touched). -/
noncomputable def reset (st : GliderState) : GliderState :=
  { st with
    position := ⟨0, 1000, 0⟩
    velocity := ⟨0, 0, -20⟩
    pitch := 0
    roll := 0
    yaw := 0
    crashed := false }

/-- The angle-difference normalisation loop in Glider.applyBoundaryForce:
while (d > PI) d -= 2 PI; while (d < -PI) d += 2 PI.  Each loop runs its
minimal number of iterations, which is the ceiling written here; the result
lies in [-PI, PI]. -/
noncomputable def normAngle (d : ℝ) : ℝ :=
  if Real.pi < d then d - 2 * Real.pi * (⌈(d - Real.pi) / (2 * Real.pi)⌉ : ℤ)
  else if d < -Real.pi then d + 2 * Real.pi * (⌈(-Real.pi - d) / (2 * Real.pi)⌉ : ℤ)
  else d

/-- Math.atan2 on reals (signed zeros are not distinguished). -/
noncomputable def atan2 (y x : ℝ) : ℝ :=
  if 0 < x then Real.arctan (y / x)
  else if x < 0 then
    (if 0 ≤ y then Real.arctan (y / x) + Real.pi else Real.arctan (y / x) - Real.pi)
  else
    (if 0 < y then Real.pi / 2 else if y < 0 then -(Real.pi / 2) else 0)

/-- Glider.applyBoundaryForce: steer yaw toward
atan2(directionToCenter.x, -directionToCenter.z) by
normalizedDiff * strength * 0.02 in one call. -/
noncomputable def applyBoundaryForce (directionToCenter : Vec3) (strength : ℝ)
    (st : GliderState) : GliderState :=
  { st with
    yaw := st.yaw +
      normAngle (atan2 directionToCenter.x (-directionToCenter.z) - st.yaw) * strength * 0.02 }

/-- The rectangle returned by LocalTerrainProvider.getBounds. -/
structure Bounds where
  minX : ℝ
  maxX : ℝ
  minZ : ℝ
  maxZ : ℝ

/-- Game.checkBoundaries (src/main.js): 100 m buffer; when either axis
penetrates the buffered band, call applyBoundaryForce with the normalised
direction to the origin and strength min(maxPenetration/buffer, 1). -/
noncomputable def checkBoundaries (b : Bounds) (st : GliderState) : GliderState :=
  let dx := max (st.position.x - (b.maxX - 100)) ((b.minX + 100) - st.position.x)
  let dz := max (st.position.z - (b.maxZ - 100)) ((b.minZ + 100) - st.position.z)
  if 0 < dx ∨ 0 < dz then
    applyBoundaryForce (normalize3 ⟨-st.position.x, 0, -st.position.z⟩)
      (min (max dx dz / 100) 1) st
  else st

/-- The bounds of the terrain configured in Game.loadTerrain:
width 5700 m, depth 3000 m, centered at the origin. -/
noncomputable def gameBounds : Bounds := ⟨-2850, 2850, -1500, 1500⟩

/-- One iteration of the glider-mutating part of Game.animate: resolve input,
dynamics step, then the boundary check (which runs regardless of the crashed
flag). -/
noncomputable def frame (pIn rIn dt : ℝ) (st : GliderState) : GliderState :=
  checkBoundaries gameBounds (update dt (setInput pIn rIn st))

/-- The state after n frames from the initial state, for a given sequence of
resolved inputs and frame times (boundary effects excluded: this is the pure
Glider.setInput + Glider.update sequence). -/
noncomputable def runSeq (ins : ℕ → ℝ × ℝ) (dts : ℕ → ℝ) : ℕ → GliderState
  | 0 => initState
  | n + 1 => update (dts n) (setInput (ins n).1 (ins n).2 (runSeq ins dts n))

/-- One zero-input tick at dt = 1/60. -/
noncomputable def zeroTick (st : GliderState) : GliderState :=
  update (1 / 60) (setInput 0 0 st)

/-- The zero-input trajectory of end-to-end scenario A: start at the initial
state, apply pitchInput = rollInput = 0 and dt = 1/60 each tick. -/
noncomputable def zeroTraj : ℕ → GliderState :=
  runSeq (fun _ => (0, 0)) (fun _ => 1 / 60)

/-! ## Heightmap terrain (LocalTerrainProvider, src/LocalTerrainProvider.js)

The provider's numeric core only uses field arithmetic, Math.floor, Math.min
and Math.max, so it is embedded generically over a linear ordered field with
floor; at the rationals every definition is executable.  The decoded height
samples are modelled as a total function on flat integer indices
(heightData[y * width + x]). -/

/-- Configuration and decoded height data of a LocalTerrainProvider. -/
structure TerrainCfg (α : Type) where
  terrainWidth : α
  terrainDepth : α
  heightDataWidth : ℤ
  heightDataHeight : ℤ
  heightData : ℤ → α

/-- LocalTerrainProvider.sampleHeightmap: clamp (u,v) to [0,1], map to
continuous pixel coordinates, and bilinearly interpolate the four nearest
samples, with the +1 neighbour index clamped to the last row/column. -/
def sampleHeightmap {α : Type} [LinearOrderedField α] [FloorRing α]
    (t : TerrainCfg α) (u0 v0 : α) : α :=
  let u := max 0 (min 1 u0)
  let v := max 0 (min 1 v0)
  let px := u * ((t.heightDataWidth : α) - 1)
  let py := v * ((t.heightDataHeight : α) - 1)
  let x0 : ℤ := ⌊px⌋
  let y0 : ℤ := ⌊py⌋
  let x1 : ℤ := min (x0 + 1) (t.heightDataWidth - 1)
  let y1 : ℤ := min (y0 + 1) (t.heightDataHeight - 1)
  let fx := px - (x0 : α)
  let fy := py - (y0 : α)
  let h00 := t.heightData (y0 * t.heightDataWidth + x0)
  let h10 := t.heightData (y0 * t.heightDataWidth + x1)
  let h01 := t.heightData (y1 * t.heightDataWidth + x0)
  let h11 := t.heightData (y1 * t.heightDataWidth + x1)
  let h0 := h00 * (1 - fx) + h10 * fx
  let h1 := h01 * (1 - fx) + h11 * fx
  h0 * (1 - fy) + h1 * fy

/-- LocalTerrainProvider.getHeightAt: map world (x,z) to normalized (u,v);
outside the terrain bounds return the sentinel 0, otherwise sample. -/
def getHeightAt {α : Type} [LinearOrderedField α] [FloorRing α]
    (t : TerrainCfg α) (x z : α) : α :=
  let u := (x + t.terrainWidth / 2) / t.terrainWidth
  let v := (z + t.terrainDepth / 2) / t.terrainDepth
  if u < 0 ∨ 1 < u ∨ v < 0 ∨ 1 < v then 0 else sampleHeightmap t u v

/-! ## InputManager (src/InputManager.js)

Key and touch handlers mutate booleans and touch coordinates; update()
resolves held keys into the pitch/roll axes (ramp by 0.05 toward the limit,
decay by 0.9 when idle) and, while a touch drag is active, overrides both
axes with the drag displacement clamped at 100 px full deflection. -/

/-- The four direction keys tracked by InputManager.keys. -/
inductive GameKey
  | up
  | down
  | left
  | right

/-- InputManager state. -/
structure InputState where
  pitch : ℚ
  roll : ℚ
  keyUp : Bool
  keyDown : Bool
  keyLeft : Bool
  keyRight : Bool
  touchActive : Bool
  touchStartX : ℚ
  touchStartY : ℚ
  touchCurrentX : ℚ
  touchCurrentY : ℚ

/-- InputManager's constructor state: axes 0, no key held, no touch. -/
def initInput : InputState :=
  ⟨0, 0, false, false, false, false, false, 0, 0, 0, 0⟩

/-- The events that can reach the InputManager between updates, plus the
per-frame update() call itself. -/
inductive InputEvent
  | keyDownEv (k : GameKey)
  | keyUpEv (k : GameKey)
  | touchStartEv (cx cy : ℚ)
  | touchMoveEv (cx cy : ℚ)
  | touchEndEv
  | touchCancelEv
  | updateEv

/-- InputManager.handleKeyDown. -/
def handleKeyDown (k : GameKey) (s : InputState) : InputState :=
  match k with
  | GameKey.up => { s with keyUp := true }
  | GameKey.down => { s with keyDown := true }
  | GameKey.left => { s with keyLeft := true }
  | GameKey.right => { s with keyRight := true }

/-- InputManager.handleKeyUp. -/
def handleKeyUp (k : GameKey) (s : InputState) : InputState :=
  match k with
  | GameKey.up => { s with keyUp := false }
  | GameKey.down => { s with keyDown := false }
  | GameKey.left => { s with keyLeft := false }
  | GameKey.right => { s with keyRight := false }

/-- The touchstart listener. -/
def touchStart (cx cy : ℚ) (s : InputState) : InputState :=
  { s with touchActive := true, touchStartX := cx, touchStartY := cy,
           touchCurrentX := cx, touchCurrentY := cy }

/-- The touchmove listener (ignored when no touch is active). -/
def touchMove (cx cy : ℚ) (s : InputState) : InputState :=
  if s.touchActive then { s with touchCurrentX := cx, touchCurrentY := cy } else s

/-- The touchend / touchcancel listeners. -/
def touchEnd (s : InputState) : InputState :=
  { s with touchActive := false }

/-- InputManager.update: keyboard ramp/decay for both axes, then the touch
override with the +-100 px full-deflection clamp (drag up gives positive
pitch). -/
def inputUpdate (s : InputState) : InputState :=
  let p1 := if s.keyUp then min (s.pitch + 0.05) 1
    else if s.keyDown then max (s.pitch - 0.05) (-1)
    else s.pitch * 0.9
  let r1 := if s.keyLeft then max (s.roll - 0.05) (-1)
    else if s.keyRight then min (s.roll + 0.05) 1
    else s.roll * 0.9
  if s.touchActive then
    let deltaX := s.touchCurrentX - s.touchStartX
    let deltaY := s.touchCurrentY - s.touchStartY
    { s with pitch := max (-1) (min 1 (-deltaY / 100)),
             roll := max (-1) (min 1 (deltaX / 100)) }
  else { s with pitch := p1, roll := r1 }

/-- Dispatch one event. -/
def applyEvent (e : InputEvent) (s : InputState) : InputState :=
  match e with
  | InputEvent.keyDownEv k => handleKeyDown k s
  | InputEvent.keyUpEv k => handleKeyUp k s
  | InputEvent.touchStartEv cx cy => touchStart cx cy s
  | InputEvent.touchMoveEv cx cy => touchMove cx cy s
  | InputEvent.touchEndEv => touchEnd s
  | InputEvent.touchCancelEv => touchEnd s
  | InputEvent.updateEv => inputUpdate s

/-- The InputManager state after an arbitrary interleaving of events and
update calls, starting from the constructor state. -/
def runEvents (es : List InputEvent) : InputState :=
  es.foldl (fun s e => applyEvent e s) initInput

/-! ## Basic lemmas about the embedded operations -/

theorem speed_nonneg (v : Vec3) : 0 ≤ speed v := Real.sqrt_nonneg _

theorem speed_le_of_sq_le (v : Vec3) (b : ℝ) (hb : 0 ≤ b)
    (h : v.x ^ 2 + v.y ^ 2 + v.z ^ 2 ≤ b ^ 2) : speed v ≤ b := by
  have := Real.sqrt_le_sqrt h
  rwa [Real.sqrt_sq hb] at this

theorem abs_y_le_speed (v : Vec3) : |v.y| ≤ speed v := by
  have h : v.y ^ 2 ≤ v.x ^ 2 + v.y ^ 2 + v.z ^ 2 := by nlinarith [sq_nonneg v.x, sq_nonneg v.z]
  have := Real.sqrt_le_sqrt h
  rwa [Real.sqrt_sq_eq_abs] at this

theorem abs_z_le_speed (v : Vec3) : |v.z| ≤ speed v := by
  have h : v.z ^ 2 ≤ v.x ^ 2 + v.y ^ 2 + v.z ^ 2 := by nlinarith [sq_nonneg v.x, sq_nonneg v.y]
  have := Real.sqrt_le_sqrt h
  rwa [Real.sqrt_sq_eq_abs] at this

theorem speed_smul3 (c : ℝ) (v : Vec3) : speed (smul3 c v) = |c| * speed v := by
  have h : (c * v.x) ^ 2 + (c * v.y) ^ 2 + (c * v.z) ^ 2
      = c ^ 2 * (v.x ^ 2 + v.y ^ 2 + v.z ^ 2) := by ring
  rw [speed, smul3, speed]
  simp only
  rw [h, Real.sqrt_mul (sq_nonneg c), Real.sqrt_sq_eq_abs]

theorem speed_pos_of_z_neg (v : Vec3) (h : v.z < 0) : 0 < speed v :=
  lt_of_lt_of_le (abs_pos.mpr (ne_of_lt h)) (abs_z_le_speed v)

theorem rotate_zero (v : Vec3) : rotate 0 0 0 v = v := by
  simp [rotate, rotX, rotY, rotZ]

theorem angleOfAttack_nonneg (st : GliderState) : 0 ≤ angleOfAttack st :=
  Real.arccos_nonneg _

theorem angleOfAttack_le_pi (st : GliderState) : angleOfAttack st ≤ Real.pi :=
  Real.arccos_le_pi _

/-- On a constant height field the bilinear interpolation returns the
constant, for every input (the four corner samples all agree). -/
theorem sampleHeightmap_const {α : Type} [LinearOrderedField α] [FloorRing α]
    (t : TerrainCfg α) (c : α) (h : ∀ n, t.heightData n = c) (u v : α) :
    sampleHeightmap t u v = c := by
  simp only [sampleHeightmap, h]
  ring

theorem normAngle_of_mem (d : ℝ) (h1 : -Real.pi ≤ d) (h2 : d ≤ Real.pi) :
    normAngle d = d := by
  rw [normAngle, if_neg (not_lt.mpr h2), if_neg (not_lt.mpr h1)]

/-- The normalisation loop lands in [-pi, pi]. -/
theorem normAngle_mem (d : ℝ) : -Real.pi ≤ normAngle d ∧ normAngle d ≤ Real.pi := by
  have h2pi : (0:ℝ) < 2 * Real.pi := by positivity
  rw [normAngle]
  by_cases hgt : Real.pi < d
  · rw [if_pos hgt]
    set q : ℝ := (d - Real.pi) / (2 * Real.pi) with hq
    have hle : q ≤ (⌈q⌉ : ℝ) := Int.le_ceil q
    have hlt : (⌈q⌉ : ℝ) < q + 1 := Int.ceil_lt_add_one q
    constructor
    · have : 2 * Real.pi * (⌈q⌉ : ℝ) < 2 * Real.pi * (q + 1) := by
        exact mul_lt_mul_of_pos_left hlt h2pi
      have hq2 : 2 * Real.pi * q = d - Real.pi := by
        rw [hq]; field_simp
      nlinarith
    · have : 2 * Real.pi * q ≤ 2 * Real.pi * (⌈q⌉ : ℝ) := by
        exact mul_le_mul_of_nonneg_left hle (le_of_lt h2pi)
      have hq2 : 2 * Real.pi * q = d - Real.pi := by
        rw [hq]; field_simp
      nlinarith
  · rw [if_neg hgt]
    by_cases hlt0 : d < -Real.pi
    · rw [if_pos hlt0]
      set q : ℝ := (-Real.pi - d) / (2 * Real.pi) with hq
      have hle : q ≤ (⌈q⌉ : ℝ) := Int.le_ceil q
      have hlt : (⌈q⌉ : ℝ) < q + 1 := Int.ceil_lt_add_one q
      have hq2 : 2 * Real.pi * q = -Real.pi - d := by
        rw [hq]; field_simp
      constructor
      · have : 2 * Real.pi * q ≤ 2 * Real.pi * (⌈q⌉ : ℝ) :=
          mul_le_mul_of_nonneg_left hle (le_of_lt h2pi)
        nlinarith
      · have : 2 * Real.pi * (⌈q⌉ : ℝ) < 2 * Real.pi * (q + 1) :=
          mul_lt_mul_of_pos_left hlt h2pi
        nlinarith
    · rw [if_neg hlt0]
      exact ⟨not_lt.mp hlt0, not_lt.mp hgt⟩

/-- For a level zero-input state whose velocity lies in the invariant box
(vx = 0, vy in [-23,0], vz in [-20,0)), one physics tick at dt = 1/60 keeps
the velocity in the box and drives the vertical velocity at least 0.03 m/s
below zero: gravity always dominates, since at speeds below sqrt(929) < 37.5
the lift magnitude stays below 7.98 < g while drag and lift can only push the
vertical velocity up, never below -23. -/
theorem zero_afterDive (st : GliderState)
    (hp : st.pitch = 0) (hr : st.roll = 0) (hy : st.yaw = 0)
    (hvx : st.velocity.x = 0) (hvy1 : -23 ≤ st.velocity.y) (hvy0 : st.velocity.y ≤ 0)
    (hvz1 : -20 ≤ st.velocity.z) (hvz0 : st.velocity.z < 0) :
    (afterDive st (1/60)).x = 0 ∧
    -23 ≤ (afterDive st (1/60)).y ∧ (afterDive st (1/60)).y ≤ -(3/100) ∧
    -20 ≤ (afterDive st (1/60)).z ∧ (afterDive st (1/60)).z < 0 := by
  obtain ⟨s, hs⟩ : ∃ x, speed st.velocity = x := ⟨_, rfl⟩
  have hyabs : -st.velocity.y ≤ s := by
    have h := abs_y_le_speed st.velocity
    rw [hs, abs_of_nonpos hvy0] at h; exact h
  have hzabs : -st.velocity.z ≤ s := by
    have h := abs_z_le_speed st.velocity
    rw [hs, abs_of_nonpos (le_of_lt hvz0)] at h; exact h
  have hs0 : 0 < s := by
    have h := speed_pos_of_z_neg st.velocity hvz0
    rwa [hs] at h
  have hsle : s ≤ 61/2 := by
    have h : speed st.velocity ≤ 61/2 := by
      apply speed_le_of_sq_le _ _ (by norm_num)
      rw [hvx]
      nlinarith [mul_nonneg (show (0:ℝ) ≤ -st.velocity.y by linarith)
          (show (0:ℝ) ≤ st.velocity.y + 23 by linarith),
        mul_nonneg (show (0:ℝ) ≤ -st.velocity.z by linarith)
          (show (0:ℝ) ≤ st.velocity.z + 20 by linarith)]
    rwa [hs] at h
  obtain ⟨a, ha⟩ : ∃ x, angleOfAttack st = x := ⟨_, rfl⟩
  have ha0 : 0 ≤ a := ha ▸ angleOfAttack_nonneg st
  have hale : a ≤ 3.15 := le_trans (ha ▸ angleOfAttack_le_pi st) (le_of_lt Real.pi_lt_d2)
  obtain ⟨c, hcdef⟩ : ∃ x, dragCoeff st = x := ⟨_, rfl⟩
  have hcval : c = 0.02 + 0 + a * 0.02 := by
    rw [← hcdef, dragCoeff, hp, if_neg (by norm_num : ¬((0.1:ℝ) < 0)), ha]
  have hc0 : 0.02 ≤ c := by rw [hcval]; linarith
  have hcle : c ≤ 0.09 := by rw [hcval]; linarith
  have hk0 : 0 ≤ s * c * (1/60) :=
    mul_nonneg (mul_nonneg hs0.le (by linarith)) (by norm_num)
  have hkle : s * c * (1/60) ≤ 1/20 := by
    nlinarith [mul_le_mul hsle hcle (by linarith) (show (0:ℝ) ≤ 61/2 by norm_num)]
  have hklow : (-st.velocity.y) * 0.02 ≤ s * c :=
    mul_le_mul hyabs hc0 (by norm_num) hs0.le
  have hup : upDir st = ⟨0, 1, 0⟩ := by rw [upDir, hp, hy, hr, rotate_zero]
  have hvd : velocityDir st = smul3 (1 / speed st.velocity) st.velocity := by
    rw [velocityDir, normalize3, if_neg]
    rw [hs]; exact ne_of_gt hs0
  have hsne : s ≠ 0 := ne_of_gt hs0
  have hnodive : ∀ w : Vec3, ¬(st.pitch < -0.1 ∧ w.y < 0 ∧ speed w < 80) := by
    intro w hcon
    rw [hp] at hcon
    exact absurd hcon.1 (by norm_num)
  by_cases h10 : 10 < s
  · -- lift branch active, drag active
    obtain ⟨L, hLdef⟩ : ∃ x, liftMagnitude st = x := ⟨_, rfl⟩
    have hLval : L = 0.8 * min (s/30) 1.5 * 1 * 9.81 := by
      rw [← hLdef, liftMagnitude, hp, Real.cos_zero, hs]
    have hmin0 : 0 ≤ min (s/30) 1.5 := le_min (by positivity) (by norm_num)
    have hminle : min (s/30) 1.5 ≤ 61/60 := le_trans (min_le_left _ _) (by linarith)
    have hL0 : 0 ≤ L := by rw [hLval]; nlinarith
    have hLle : L ≤ 7.98 := by rw [hLval]; nlinarith
    have hAL : afterLift st (1/60)
        = ⟨0, st.velocity.y - 9.81 * (1/60) + L * (1/60), st.velocity.z⟩ := by
      rw [afterLift, afterGravity, liftDelta, if_pos (hs ▸ h10 : 10 < speed st.velocity),
        hup, hLdef]
      simp [add3, smul3, hvx]
    have hADr : afterDrag st (1/60)
        = ⟨0, st.velocity.y - 9.81 * (1/60) + L * (1/60) - st.velocity.y * (s * c * (1/60)),
            st.velocity.z - st.velocity.z * (s * c * (1/60))⟩ := by
      rw [afterDrag, if_pos (hs ▸ (by linarith : (0.1:ℝ) < s) : 0.1 < speed st.velocity),
        hAL, hvd, hs, hcdef]
      apply Vec3.ext <;> simp [add3, smul3, hvx] <;> field_simp <;> ring
    have hAD : afterDive st (1/60) = afterDrag st (1/60) := by
      rw [afterDive, if_neg (hnodive _)]
    rw [hAD, hADr]
    refine ⟨rfl, ?_, ?_, ?_, ?_⟩
    · -- -23 ≤ y component
      have hprod : (-st.velocity.y) * ((-st.velocity.y) * 0.02 * (1/60))
          ≤ (-st.velocity.y) * (s * c * (1/60)) := by
        apply mul_le_mul_of_nonneg_left _ (by linarith)
        nlinarith
      have hcert := mul_nonneg (show (0:ℝ) ≤ 23 + st.velocity.y by linarith)
        (show (0:ℝ) ≤ 2977 + st.velocity.y by linarith)
      simp only
      nlinarith [hprod, hcert, hL0]
    · -- y component ≤ -0.03
      have hm := mul_nonneg (neg_nonneg.mpr hvy0)
        (show (0:ℝ) ≤ 1 - s * c * (1/60) by linarith)
      simp only
      nlinarith [hm, hLle]
    · -- -20 ≤ z component
      have hm := mul_nonneg (neg_nonneg.mpr (le_of_lt hvz0)) hk0
      simp only
      nlinarith [hm]
    · -- z component < 0
      simp only
      have heq : st.velocity.z - st.velocity.z * (s * c * (1/60))
          = st.velocity.z * (1 - s * c * (1/60)) := by ring
      rw [heq]
      exact mul_neg_of_neg_of_pos hvz0 (by linarith)
  · -- stalled: no lift
    have hAL : afterLift st (1/60)
        = ⟨0, st.velocity.y - 9.81 * (1/60), st.velocity.z⟩ := by
      rw [afterLift, afterGravity, liftDelta, if_neg (by rw [hs]; exact h10)]
      simp [add3, hvx]
    by_cases h01 : (0.1:ℝ) < s
    · -- drag still active
      have hADr : afterDrag st (1/60)
          = ⟨0, st.velocity.y - 9.81 * (1/60) - st.velocity.y * (s * c * (1/60)),
              st.velocity.z - st.velocity.z * (s * c * (1/60))⟩ := by
        rw [afterDrag, if_pos (hs ▸ h01 : 0.1 < speed st.velocity), hAL, hvd, hs, hcdef]
        apply Vec3.ext <;> simp [add3, smul3, hvx] <;> field_simp <;> ring
      have hAD : afterDive st (1/60) = afterDrag st (1/60) := by
        rw [afterDive, if_neg (hnodive _)]
      rw [hAD, hADr]
      refine ⟨rfl, ?_, ?_, ?_, ?_⟩
      · have hprod : (-st.velocity.y) * ((-st.velocity.y) * 0.02 * (1/60))
            ≤ (-st.velocity.y) * (s * c * (1/60)) := by
          apply mul_le_mul_of_nonneg_left _ (by linarith)
          nlinarith
        have hcert := mul_nonneg (show (0:ℝ) ≤ 23 + st.velocity.y by linarith)
          (show (0:ℝ) ≤ 2977 + st.velocity.y by linarith)
        simp only
        nlinarith [hprod, hcert]
      · have hm := mul_nonneg (neg_nonneg.mpr hvy0)
          (show (0:ℝ) ≤ 1 - s * c * (1/60) by linarith)
        simp only
        nlinarith [hm]
      · have hm := mul_nonneg (neg_nonneg.mpr (le_of_lt hvz0)) hk0
        simp only
        nlinarith [hm]
      · simp only
        have heq : st.velocity.z - st.velocity.z * (s * c * (1/60))
            = st.velocity.z * (1 - s * c * (1/60)) := by ring
        rw [heq]
        exact mul_neg_of_neg_of_pos hvz0 (by linarith)
    · -- near-zero speed: no drag either
      have hADr : afterDrag st (1/60) = afterLift st (1/60) := by
        rw [afterDrag, if_neg (by rw [hs]; exact h01)]
      have hAD : afterDive st (1/60) = afterDrag st (1/60) := by
        rw [afterDive, if_neg (hnodive _)]
      have hsy : -st.velocity.y ≤ 0.1 := by
        have := not_lt.mp h01
        linarith
      rw [hAD, hADr, hAL]
      refine ⟨rfl, by simp only; linarith, by simp only; linarith,
        by simp only; linarith, by simp only; linarith⟩

/-- With zero angle state and zero inputs, updateRotation leaves the state
unchanged. -/
theorem updateOrientation_zero (dt : ℝ) (st : GliderState)
    (hp : st.pitch = 0) (hr : st.roll = 0)
    (hpi : st.pitchInput = 0) (hri : st.rollInput = 0) :
    updateOrientation dt st = st := by
  have hc3 : max (-(Real.pi / 3)) (min (Real.pi / 3) 0) = 0 := by
    rw [min_eq_right (by positivity), max_eq_right (by simp [Real.pi_nonneg]; positivity)]
  have hc2 : max (-(Real.pi / 2)) (min (Real.pi / 2) 0) = 0 := by
    rw [min_eq_right (by positivity), max_eq_right (by simp [Real.pi_nonneg]; positivity)]
  simp only [updateOrientation, hp, hr, hpi, hri]
  norm_num [hc3, hc2]
  apply GliderState.ext <;> simp [hp, hr, hpi, hri]

/-- The inductive invariant of the zero-input trajectory: not crashed, level
orientation, zero inputs, a purely vertical/forward velocity inside the box
vx = 0, vy in [-23,0], vz in [-20,0), and x position pinned at 0. -/
def ZeroInputInv (st : GliderState) : Prop :=
  st.crashed = false ∧ st.pitch = 0 ∧ st.roll = 0 ∧ st.yaw = 0 ∧
  st.pitchInput = 0 ∧ st.rollInput = 0 ∧
  st.velocity.x = 0 ∧ -23 ≤ st.velocity.y ∧ st.velocity.y ≤ 0 ∧
  -20 ≤ st.velocity.z ∧ st.velocity.z < 0 ∧
  st.position.x = 0

/-- One zero-input tick from an invariant state: the altitude drops by an
amount in [1/2000, 2/5] metres, the x position is unchanged, the z position
moves backward by at most 1/3 metre, the crash flag is set exactly when the
new altitude is negative, and if it is not set the invariant is preserved. -/
theorem zeroTick_spec (st : GliderState) (h : ZeroInputInv st) :
    (zeroTick st).position.y ≤ st.position.y - 1/2000 ∧
    st.position.y - 2/5 ≤ (zeroTick st).position.y ∧
    (zeroTick st).position.x = 0 ∧
    st.position.z - 1/3 ≤ (zeroTick st).position.z ∧
    (zeroTick st).position.z ≤ st.position.z ∧
    ((zeroTick st).crashed = true ↔ (zeroTick st).position.y < 0) ∧
    (0 ≤ (zeroTick st).position.y → ZeroInputInv (zeroTick st)) := by
  obtain ⟨hc, hp, hr, hy, hpi, hri, hvx, hvy1, hvy0, hvz1, hvz0, hx⟩ := h
  obtain ⟨hwx, hwy1, hwy2, hwz1, hwz2⟩ :=
    zero_afterDive st hp hr hy hvx hvy1 hvy0 hvz1 hvz0
  have hset : setInput 0 0 st = st := by
    apply GliderState.ext <;> simp [setInput, hpi, hri]
  have hmin : min (1/60 : ℝ) 0.1 = 1/60 := by norm_num
  have h1 : zeroTick st = updatePhysics (1/60) st := by
    rw [zeroTick, hset, update, if_neg (by simp [hc]), hmin,
      updateOrientation_zero _ _ hp hr hpi hri]
  have hnv : newVelocity st (1/60) = afterDive st (1/60) := by
    rw [newVelocity, if_neg]
    apply not_lt.mpr
    apply speed_le_of_sq_le _ 80 (by norm_num)
    rw [hwx]
    nlinarith [mul_nonneg (show (0:ℝ) ≤ -(afterDive st (1/60)).y by linarith)
        (show (0:ℝ) ≤ (afterDive st (1/60)).y + 23 by linarith),
      mul_nonneg (show (0:ℝ) ≤ -(afterDive st (1/60)).z by linarith)
        (show (0:ℝ) ≤ (afterDive st (1/60)).z + 20 by linarith)]
  have hpos : newPosition st (1/60)
      = ⟨st.position.x + (1/60) * (afterDive st (1/60)).x,
         st.position.y + (1/60) * (afterDive st (1/60)).y,
         st.position.z + (1/60) * (afterDive st (1/60)).z⟩ := by
    rw [newPosition, hnv]; simp [add3, smul3]
  rw [h1]
  simp only [updatePhysics, hpos]
  refine ⟨by linarith, by linarith, by rw [hx, hwx]; ring,
    by linarith, by linarith, ?_, ?_⟩
  · by_cases hcr : st.position.y + 1/60 * (afterDive st (1/60)).y < 0
    · rw [if_pos hcr]
      exact ⟨fun _ => hcr, fun _ => rfl⟩
    · rw [if_neg hcr, hc]
      exact ⟨fun hh => absurd hh (by simp), fun hh => absurd hh hcr⟩
  · intro hge
    have hncr : ¬(st.position.y + 1/60 * (afterDive st (1/60)).y < 0) := not_lt.mpr hge
    simp only [if_neg hncr, hnv]
    exact ⟨hc, hp, hr, hy, hpi, hri, hwx, hwy1, by linarith, hwz1, hwz2,
      by rw [hx, hwx]; ring⟩

theorem initState_inv : ZeroInputInv initState := by
  refine ⟨rfl, rfl, rfl, rfl, rfl, rfl, rfl, ?_, ?_, ?_, ?_, rfl⟩ <;>
    norm_num [initState]

theorem zeroTraj_zero : zeroTraj 0 = initState := rfl

theorem zeroTraj_succ (n : ℕ) : zeroTraj (n + 1) = zeroTick (zeroTraj n) := rfl

/-- Along the first 1200 zero-input ticks the invariant holds and the
altitude stays between 1000 - 2n/5 and 1000. -/
theorem zeroTraj_inv_upto (n : ℕ) (hn : n ≤ 1200) :
    ZeroInputInv (zeroTraj n) ∧
    1000 - 2/5 * (n:ℝ) ≤ (zeroTraj n).position.y ∧
    (zeroTraj n).position.y ≤ 1000 := by
  induction n with
  | zero =>
    refine ⟨initState_inv, ?_, ?_⟩ <;> rw [zeroTraj_zero] <;> norm_num [initState]
  | succ n ih =>
    have hn' : n ≤ 1200 := by omega
    obtain ⟨hinv, hlo, hhi⟩ := ih hn'
    obtain ⟨s1, s2, _, _, _, _, s7⟩ := zeroTick_spec _ hinv
    have hnle : (n:ℝ) ≤ 1200 := by exact_mod_cast hn'
    have hy1 : 0 ≤ (zeroTick (zeroTraj n)).position.y := by linarith
    rw [zeroTraj_succ]
    refine ⟨s7 hy1, ?_, ?_⟩ <;> push_cast <;> linarith

/-- While no crash has occurred, the invariant holds and the altitude has
dropped by at least n/2000 and at most 2n/5, the altitude is nonnegative
(else the crash flag would have been set), and the z drift is at most n/3. -/
theorem zeroTraj_alive (n : ℕ) (h : ∀ k, k ≤ n → (zeroTraj k).crashed = false) :
    ZeroInputInv (zeroTraj n) ∧
    (zeroTraj n).position.y ≤ 1000 - (n:ℝ)/2000 ∧
    1000 - 2/5 * (n:ℝ) ≤ (zeroTraj n).position.y ∧
    0 ≤ (zeroTraj n).position.y ∧
    -((n:ℝ)/3) ≤ (zeroTraj n).position.z ∧ (zeroTraj n).position.z ≤ 0 := by
  induction n with
  | zero =>
    refine ⟨initState_inv, ?_, ?_, ?_, ?_, ?_⟩ <;> rw [zeroTraj_zero] <;>
      norm_num [initState]
  | succ n ih =>
    have hall : ∀ k, k ≤ n → (zeroTraj k).crashed = false :=
      fun k hk => h k (by omega)
    obtain ⟨hinv, hup, hlo, hy0, hz1, hz2⟩ := ih hall
    obtain ⟨s1, s2, _, s4, s5, s6, s7⟩ := zeroTick_spec _ hinv
    have hcf : (zeroTraj (n+1)).crashed = false := h (n+1) le_rfl
    have hy1 : 0 ≤ (zeroTraj (n+1)).position.y := by
      by_contra hneg
      push_neg at hneg
      rw [zeroTraj_succ] at hneg
      have : (zeroTraj (n+1)).crashed = true := by
        rw [zeroTraj_succ]; exact s6.mpr hneg
      rw [hcf] at this
      exact absurd this (by simp)
    rw [zeroTraj_succ] at hy1 ⊢
    refine ⟨s7 hy1, ?_, ?_, hy1, ?_, ?_⟩ <;> push_cast <;> linarith

/-- The zero-input trajectory eventually crashes: the altitude drops by at
least 1/2000 per tick while alive, which is incompatible with staying
nonnegative forever. -/
theorem zeroTraj_crashes : ∃ N, (zeroTraj N).crashed = true := by
  by_contra hno
  push_neg at hno
  have hall : ∀ k, (zeroTraj k).crashed = false := by
    intro k
    have := hno k
    simpa using this
  obtain ⟨_, hup, _, hy0, _, _⟩ := zeroTraj_alive 2200000 (fun k _ => hall k)
  norm_num at hup
  linarith

/-- The first crashed tick: all earlier states are alive and the crash sets
in exactly when the integrated altitude first goes negative. -/
theorem zeroTraj_first_crash :
    ∃ N, (∀ k, k ≤ N → (zeroTraj k).crashed = false) ∧
      (zeroTraj (N+1)).crashed = true ∧ (zeroTraj (N+1)).position.y < 0 := by
  classical
  have hex := zeroTraj_crashes
  have hMs : (zeroTraj (Nat.find hex)).crashed = true := Nat.find_spec hex
  have hM0 : Nat.find hex ≠ 0 := by
    intro h0
    rw [h0, zeroTraj_zero] at hMs
    exact absurd hMs (by simp [initState])
  obtain ⟨N, hN⟩ := Nat.exists_eq_succ_of_ne_zero hM0
  rw [hN] at hMs
  have hall : ∀ k, k ≤ N → (zeroTraj k).crashed = false := by
    intro k hk
    have := Nat.find_min hex (show k < Nat.find hex by omega)
    simpa using this
  obtain ⟨hinv, _, _, _, _, _⟩ := zeroTraj_alive N hall
  obtain ⟨_, _, _, _, _, s6, _⟩ := zeroTick_spec _ hinv
  refine ⟨N, hall, hMs, ?_⟩
  rw [zeroTraj_succ]
  exact s6.mp (by rw [← zeroTraj_succ]; exact hMs)

/-- A flat 100 m elevation field over a 10000 km x 10000 km footprint,
used to exhibit the missing terrain collision. -/
noncomputable def constTerrain : TerrainCfg ℝ :=
  ⟨10000000, 10000000, 2, 2, fun _ => 100⟩

theorem constTerrain_height (x z : ℝ) (hx : x = 0) (hz1 : -4000000 ≤ z) (hz2 : z ≤ 0) :
    getHeightAt constTerrain x z = 100 := by
  have hv0 : 0 ≤ (z + (5000000:ℝ)) / 10000000 := by
    apply div_nonneg _ (by norm_num)
    linarith
  have hv1 : (z + (5000000:ℝ)) / 10000000 ≤ 1 := by
    rw [div_le_one (by norm_num)]
    linarith
  rw [getHeightAt]
  simp only [constTerrain, hx]
  rw [if_neg]
  · exact sampleHeightmap_const _ 100 (fun _ => rfl) _ _
  · push_neg
    norm_num
    exact ⟨hv0, hv1⟩

/-! ## Claim theorems -/

/-- A glider 50 m above the origin, otherwise in its initial configuration. -/
noncomputable def gliderNearGround : GliderState :=
  { initState with position := ⟨0, 50, 0⟩ }

/-- Claim C1 (code_bug evaluation): the ground check in Glider.updatePhysics
compares position.y against the constant 0 only.  The Glider constructor takes
one parameter and drops the terrain provider that main.js passes "for
collision", so even with a flat terrain of height 100 under the glider, a step
that leaves the glider at altitude about 49.999 — 50 m below the terrain
surface — does not transition to Crashed. -/
theorem c1_ground_check_ignores_terrain :
    (update (1/60) gliderNearGround).crashed = false ∧
    (update (1/60) gliderNearGround).position.y
      < getHeightAt constTerrain (update (1/60) gliderNearGround).position.x
          (update (1/60) gliderNearGround).position.z := by
  have hinv : ZeroInputInv gliderNearGround := by
    refine ⟨rfl, rfl, rfl, rfl, rfl, rfl, rfl, ?_, ?_, ?_, ?_, rfl⟩ <;>
      norm_num [gliderNearGround, initState]
  have hset : setInput 0 0 gliderNearGround = gliderNearGround := by
    apply GliderState.ext <;> simp [setInput, gliderNearGround, initState]
  have hzt : zeroTick gliderNearGround = update (1/60) gliderNearGround := by
    rw [zeroTick, hset]
  obtain ⟨s1, s2, s3, s4, s5, s6, _⟩ := zeroTick_spec _ hinv
  rw [← hzt]
  have hy50 : gliderNearGround.position.y = 50 := rfl
  have hz0 : gliderNearGround.position.z = 0 := rfl
  rw [hy50] at s1 s2
  rw [hz0] at s4 s5
  have hnc : ¬((zeroTick gliderNearGround).crashed = true) := by
    intro hcr
    have := s6.mp hcr
    linarith
  constructor
  · simpa using hnc
  · rw [constTerrain_height _ _ s3 (by linarith) s5]
    linarith

/-- Claim C2 (amended): along the zero-input dt = 1/60 trajectory from the
initial state the altitude strictly decreases on every one of the first 1000
ticks, and the Crashed transition eventually fires — at the first tick whose
integrated altitude is below 0, the hard-coded fallback threshold, since the
glider never consults the terrain. -/
theorem c2_zero_input_descent :
    (∀ n, n < 1000 → (zeroTraj (n+1)).position.y < (zeroTraj n).position.y) ∧
    (∃ N, (zeroTraj N).crashed = false ∧ (zeroTraj (N+1)).crashed = true ∧
      (zeroTraj (N+1)).position.y < 0) := by
  constructor
  · intro n hn
    obtain ⟨hinv, _, _⟩ := zeroTraj_inv_upto n (by omega)
    have h1 := (zeroTick_spec _ hinv).1
    rw [zeroTraj_succ]
    linarith
  · obtain ⟨N, hall, hcr, hy⟩ := zeroTraj_first_crash
    exact ⟨N, hall N le_rfl, hcr, hy⟩

/-- Claim C2 (counterexample to the claim as stated): with the glider flying
over terrain of constant height 100 (well inside a huge footprint), the
zero-input trajectory reaches a tick at which its altitude is strictly below
the terrain height at its position and yet the Crashed transition has not
fired: the crash only fires when the altitude crosses 0. -/
theorem c2_crosses_terrain_uncrashed :
    ∃ n, (zeroTraj n).position.y
        < getHeightAt constTerrain (zeroTraj n).position.x (zeroTraj n).position.z ∧
      (zeroTraj n).crashed = false := by
  obtain ⟨N, hall, hcr, hyneg⟩ := zeroTraj_first_crash
  obtain ⟨hinv, hup, hlo, hy0, hz1, hz2⟩ := zeroTraj_alive N hall
  obtain ⟨s1, s2, _, _, _, _, _⟩ := zeroTick_spec _ hinv
  rw [zeroTraj_succ] at hyneg
  have hyN : (zeroTraj N).position.y < 2/5 := by linarith
  have hNle : (N:ℝ) ≤ 2000000 := by linarith
  have hzlo : -4000000 ≤ (zeroTraj N).position.z := by
    have hd3 : (N:ℝ)/3 ≤ 2000000/3 := by linarith
    linarith
  obtain ⟨_, _, _, _, _, _, _, _, _, _, _, hx⟩ := hinv
  refine ⟨N, ?_, hall N le_rfl⟩
  rw [constTerrain_height _ _ hx hzlo hz2]
  linarith

/-! ## Clamp invariants (claim C3) -/

theorem abs_clamp_le (a x : ℝ) (ha : 0 ≤ a) : |max (-a) (min a x)| ≤ a := by
  rw [abs_le]
  exact ⟨le_max_left _ _, max_le (by linarith) (min_le_left _ _)⟩

theorem speed_zero_vec : speed ⟨0, 0, 0⟩ = 0 := by
  simp [speed]

/-- The max-speed clamp always leaves the integrated velocity at length at
most 80, rescaling exactly to 80 when the raw length exceeds it. -/
theorem newVelocity_speed_le (st : GliderState) (dt : ℝ) :
    speed (newVelocity st dt) ≤ 80 := by
  rw [newVelocity]
  by_cases h : 80 < speed (afterDive st dt)
  · rw [if_pos h, speed_smul3]
    have hpos : 0 < speed (afterDive st dt) := by linarith
    rw [abs_of_pos (by positivity), div_mul_cancel₀ _ (ne_of_gt hpos)]
  · rw [if_neg h]
    exact not_lt.mp h

theorem updatePhysics_pitch (dt : ℝ) (st : GliderState) :
    (updatePhysics dt st).pitch = st.pitch := rfl

theorem updatePhysics_roll (dt : ℝ) (st : GliderState) :
    (updatePhysics dt st).roll = st.roll := rfl

theorem updatePhysics_velocity (dt : ℝ) (st : GliderState) :
    (updatePhysics dt st).velocity
      = if (newPosition st dt).y < 0 then ⟨0, 0, 0⟩ else newVelocity st dt := rfl

theorem updateOrientation_pitch (dt : ℝ) (st : GliderState) :
    (updateOrientation dt st).pitch
      = max (-(Real.pi / 3)) (min (Real.pi / 3) (st.pitch + st.pitchInput * 1.5 * dt)) := rfl

theorem updateOrientation_roll (dt : ℝ) (st : GliderState) :
    (updateOrientation dt st).roll
      = (if |st.rollInput| < 0.1 then
          max (-(Real.pi / 2)) (min (Real.pi / 2) (st.roll + st.rollInput * 2.0 * dt))
            * (1 - 0.5 * dt)
        else max (-(Real.pi / 2)) (min (Real.pi / 2) (st.roll + st.rollInput * 2.0 * dt))) := rfl

/-- The invariant of claim C3. -/
def ClampInv (st : GliderState) : Prop :=
  |st.pitch| ≤ Real.pi / 3 ∧ |st.roll| ≤ Real.pi / 2 ∧ speed st.velocity ≤ 80

/-- One step preserves the clamp invariant for any inputs and any dt >= 0. -/
theorem update_clamp_inv (dt : ℝ) (st : GliderState) (hdt : 0 ≤ dt)
    (h : ClampInv st) : ClampInv (update dt st) := by
  rw [update]
  by_cases hc : st.crashed = true
  · rw [if_pos hc]; exact h
  · rw [if_neg hc]
    have hdt0 : 0 ≤ min dt 0.1 := le_min hdt (by norm_num)
    have hdt1 : min dt 0.1 ≤ 0.1 := min_le_right _ _
    refine ⟨?_, ?_, ?_⟩
    · rw [updatePhysics_pitch, updateOrientation_pitch]
      exact abs_clamp_le _ _ (by positivity)
    · rw [updatePhysics_roll, updateOrientation_roll]
      by_cases hdz : |st.rollInput| < 0.1
      · rw [if_pos hdz, abs_mul]
        have h1 : |max (-(Real.pi / 2))
            (min (Real.pi / 2) (st.roll + st.rollInput * 2.0 * min dt 0.1))| ≤ Real.pi / 2 :=
          abs_clamp_le _ _ (by positivity)
        have h2 : |1 - 0.5 * min dt 0.1| ≤ 1 := by
          rw [abs_le]; constructor <;> linarith
        calc |max (-(Real.pi / 2))
              (min (Real.pi / 2) (st.roll + st.rollInput * 2.0 * min dt 0.1))|
              * |1 - 0.5 * min dt 0.1|
            ≤ |max (-(Real.pi / 2))
              (min (Real.pi / 2) (st.roll + st.rollInput * 2.0 * min dt 0.1))| * 1 := by
              exact mul_le_mul_of_nonneg_left h2 (abs_nonneg _)
          _ ≤ Real.pi / 2 := by rw [mul_one]; exact h1
      · rw [if_neg hdz]
        exact abs_clamp_le _ _ (by positivity)
    · rw [updatePhysics_velocity]
      by_cases hcr : (newPosition (updateOrientation (min dt 0.1) st) (min dt 0.1)).y < 0
      · rw [if_pos hcr, speed_zero_vec]; norm_num
      · rw [if_neg hcr]
        exact newVelocity_speed_le _ _

theorem initState_clamp_inv : ClampInv initState := by
  refine ⟨?_, ?_, ?_⟩
  · show |(0:ℝ)| ≤ Real.pi / 3
    rw [abs_zero]; positivity
  · show |(0:ℝ)| ≤ Real.pi / 2
    rw [abs_zero]; positivity
  · apply speed_le_of_sq_le _ _ (by norm_num)
    show (0:ℝ)^2 + (0:ℝ)^2 + (-20:ℝ)^2 ≤ 80^2
    norm_num

/-- Claim C3: for every sequence of step calls with inputs in [-1,1] and
nonnegative dt, after every step |pitch| <= pi/3, |roll| <= pi/2 and
|velocity| <= maxSpeed = 80 (the input bounds are part of the claim; the
clamps make the invariant hold without using them). -/
theorem c3_clamp_invariants (ins : ℕ → ℝ × ℝ) (dts : ℕ → ℝ)
    (hdt : ∀ n, 0 ≤ dts n)
    (hp : ∀ n, |(ins n).1| ≤ 1) (hr : ∀ n, |(ins n).2| ≤ 1) (n : ℕ) :
    |(runSeq ins dts n).pitch| ≤ Real.pi / 3 ∧
    |(runSeq ins dts n).roll| ≤ Real.pi / 2 ∧
    speed (runSeq ins dts n).velocity ≤ 80 := by
  induction n with
  | zero => exact initState_clamp_inv
  | succ n ih =>
    have hset : ClampInv (setInput (ins n).1 (ins n).2 (runSeq ins dts n)) := ih
    exact update_clamp_inv (dts n) _ (hdt n) hset

/-- The concrete input sequence used by the C3 witness. -/
noncomputable def constIns : ℕ → ℝ × ℝ := fun _ => (0, 0)

/-- The concrete dt sequence used by the C3 witness. -/
noncomputable def constDts : ℕ → ℝ := fun _ => 1 / 60

theorem c3_clamp_invariants_witness :
    (∀ n : ℕ, 0 ≤ constDts n) ∧ (∀ n : ℕ, |(constIns n).1| ≤ 1) ∧
    (∀ n : ℕ, |(constIns n).2| ≤ 1) ∧
    (|(runSeq constIns constDts 2).pitch| ≤ Real.pi / 3 ∧
     |(runSeq constIns constDts 2).roll| ≤ Real.pi / 2 ∧
     speed (runSeq constIns constDts 2).velocity ≤ 80) := by
  have h1 : ∀ n : ℕ, 0 ≤ constDts n := fun _ => by norm_num [constDts]
  have h2 : ∀ n : ℕ, |(constIns n).1| ≤ 1 := fun _ => by norm_num [constIns]
  have h3 : ∀ n : ℕ, |(constIns n).2| ≤ 1 := fun _ => by norm_num [constIns]
  exact ⟨h1, h2, h3, c3_clamp_invariants constIns constDts h1 h2 h3 2⟩

/-! ## Crash terminality and reset (claim C5), stall policy (claim C7) -/

/-- Claim C5: once crashed, a step call returns immediately and the whole
state — in particular position and velocity — is unchanged, so nothing but
reset() leaves Crashed; and reset() restores exactly position (0,1000,0),
velocity (0,0,-20), zero angles and a cleared crashed flag. -/
theorem c5_crash_terminal_reset (st : GliderState) (dt : ℝ) (h : st.crashed = true) :
    update dt st = st ∧
    (reset st).position = ⟨0, 1000, 0⟩ ∧ (reset st).velocity = ⟨0, 0, -20⟩ ∧
    (reset st).pitch = 0 ∧ (reset st).roll = 0 ∧ (reset st).yaw = 0 ∧
    (reset st).crashed = false := by
  refine ⟨?_, rfl, rfl, rfl, rfl, rfl, rfl⟩
  rw [update, if_pos h]

/-- A crashed state used to witness C5. -/
noncomputable def crashedState : GliderState := { initState with crashed := true }

theorem c5_crash_terminal_reset_witness :
    crashedState.crashed = true ∧
    (update 1 crashedState = crashedState ∧
     (reset crashedState).position = ⟨0, 1000, 0⟩ ∧
     (reset crashedState).velocity = ⟨0, 0, -20⟩ ∧
     (reset crashedState).pitch = 0 ∧ (reset crashedState).roll = 0 ∧
     (reset crashedState).yaw = 0 ∧ (reset crashedState).crashed = false) :=
  ⟨rfl, c5_crash_terminal_reset crashedState 1 rfl⟩

theorem updatePhysics_debugLift (dt : ℝ) (st : GliderState) :
    (updatePhysics dt st).debugLift
      = if 10 < speed st.velocity then liftMagnitude st else 0 := rfl

/-- Claim C7: at speed <= minSpeed = 10 the lift contribution of the tick is
the zero vector (the strict test speed > 10 fails) and the tick stores 0 in
debugLift; lift is added only in the speed > 10 branch. -/
theorem c7_stall_no_lift (st : GliderState) (dt : ℝ) (hc : st.crashed = false)
    (hs : speed st.velocity ≤ 10) :
    liftDelta (updateOrientation (min dt 0.1) st) (min dt 0.1) = ⟨0, 0, 0⟩ ∧
    (update dt st).debugLift = 0 := by
  have hv : (updateOrientation (min dt 0.1) st).velocity = st.velocity := rfl
  constructor
  · rw [liftDelta, hv, if_neg (not_lt.mpr hs)]
  · rw [update, if_neg (by simp [hc]), updatePhysics_debugLift, hv, if_neg (not_lt.mpr hs)]

/-- A slow (6 m/s) state used to witness C7. -/
noncomputable def slowState : GliderState := { initState with velocity := ⟨0, 0, -6⟩ }

theorem c7_stall_no_lift_witness :
    slowState.crashed = false ∧ speed slowState.velocity ≤ 10 ∧
    (liftDelta (updateOrientation (min (1/60) 0.1) slowState) (min (1/60) 0.1) = ⟨0, 0, 0⟩ ∧
     (update (1/60) slowState).debugLift = 0) := by
  have hs : speed slowState.velocity ≤ 10 := by
    apply speed_le_of_sq_le _ _ (by norm_num)
    show (0:ℝ)^2 + (0:ℝ)^2 + (-6:ℝ)^2 ≤ 10^2
    norm_num
  exact ⟨rfl, hs, c7_stall_no_lift slowState (1/60) rfl hs⟩

/-! ## Bilinear interpolation exactness (claim C4) and the boundary
sentinel (claim C6) -/

/-- Claim C4: the height query is the exact bilinear combination of the four
nearest samples.  Concretely: (a) at an exact grid corner u = i/(W-1),
v = j/(H-1) it returns the sample heightData[j*W + i] exactly; (b) on a 2x2
grid at the midpoint (1/2, 1/2) it returns the arithmetic mean of the four
corner samples; (c) on a constant field of height 100 it returns exactly 100
for every input. -/
theorem c4_bilinear_exact :
    (∀ (t : TerrainCfg ℚ) (i j : ℤ),
      2 ≤ t.heightDataWidth → 2 ≤ t.heightDataHeight →
      0 ≤ i → i ≤ t.heightDataWidth - 1 → 0 ≤ j → j ≤ t.heightDataHeight - 1 →
      sampleHeightmap t ((i : ℚ) / ((t.heightDataWidth : ℚ) - 1))
          ((j : ℚ) / ((t.heightDataHeight : ℚ) - 1))
        = t.heightData (j * t.heightDataWidth + i)) ∧
    (∀ t : TerrainCfg ℚ, t.heightDataWidth = 2 → t.heightDataHeight = 2 →
      sampleHeightmap t (1/2) (1/2)
        = (t.heightData 0 + t.heightData 1 + t.heightData 2 + t.heightData 3) / 4) ∧
    (∀ t : TerrainCfg ℚ, (∀ n, t.heightData n = 100) →
      ∀ u v, sampleHeightmap t u v = 100) := by
  refine ⟨?_, ?_, fun t h u v => sampleHeightmap_const t 100 h u v⟩
  · intro t i j hW hH hi0 hi1 hj0 hj1
    have hWq : (2:ℚ) ≤ (t.heightDataWidth : ℚ) := by exact_mod_cast hW
    have hHq : (2:ℚ) ≤ (t.heightDataHeight : ℚ) := by exact_mod_cast hH
    have hWpos : (0:ℚ) < (t.heightDataWidth : ℚ) - 1 := by linarith
    have hHpos : (0:ℚ) < (t.heightDataHeight : ℚ) - 1 := by linarith
    have hiq : (i:ℚ) ≤ (t.heightDataWidth : ℚ) - 1 := by
      have : (i:ℚ) ≤ ((t.heightDataWidth - 1 : ℤ) : ℚ) := by exact_mod_cast hi1
      push_cast at this
      linarith
    have hjq : (j:ℚ) ≤ (t.heightDataHeight : ℚ) - 1 := by
      have : (j:ℚ) ≤ ((t.heightDataHeight - 1 : ℤ) : ℚ) := by exact_mod_cast hj1
      push_cast at this
      linarith
    have hi0q : (0:ℚ) ≤ (i:ℚ) := by exact_mod_cast hi0
    have hj0q : (0:ℚ) ≤ (j:ℚ) := by exact_mod_cast hj0
    have hu0 : (0:ℚ) ≤ (i:ℚ) / ((t.heightDataWidth : ℚ) - 1) := div_nonneg hi0q hWpos.le
    have hu1 : (i:ℚ) / ((t.heightDataWidth : ℚ) - 1) ≤ 1 := by
      rw [div_le_one hWpos]; exact hiq
    have hv0 : (0:ℚ) ≤ (j:ℚ) / ((t.heightDataHeight : ℚ) - 1) := div_nonneg hj0q hHpos.le
    have hv1 : (j:ℚ) / ((t.heightDataHeight : ℚ) - 1) ≤ 1 := by
      rw [div_le_one hHpos]; exact hjq
    simp only [sampleHeightmap]
    rw [min_eq_right hu1, max_eq_right hu0, min_eq_right hv1, max_eq_right hv0,
      div_mul_cancel₀ _ hWpos.ne', div_mul_cancel₀ _ hHpos.ne',
      Int.floor_intCast, Int.floor_intCast]
    ring
  · intro t hW hH
    simp only [sampleHeightmap, hW, hH]
    norm_num
    ring

/-- Claim C6: for any world coordinate strictly outside the footprint
[-W/2, W/2] x [-D/2, D/2], getHeightAt returns the defined sentinel 0. -/
theorem c6_out_of_bounds_zero (t : TerrainCfg ℚ)
    (hW : 0 < t.terrainWidth) (hD : 0 < t.terrainDepth) (x z : ℚ)
    (h : t.terrainWidth / 2 < |x| ∨ t.terrainDepth / 2 < |z|) :
    getHeightAt t x z = 0 := by
  simp only [getHeightAt]
  rw [if_pos]
  rcases h with hx | hz
  · rcases lt_abs.mp hx with hx1 | hx1
    · refine Or.inr (Or.inl ?_)
      rw [lt_div_iff₀ hW]
      linarith
    · refine Or.inl ?_
      apply div_neg_of_neg_of_pos _ hW
      linarith
  · rcases lt_abs.mp hz with hz1 | hz1
    · refine Or.inr (Or.inr (Or.inr ?_))
      rw [lt_div_iff₀ hD]
      linarith
    · refine Or.inr (Or.inr (Or.inl ?_))
      apply div_neg_of_neg_of_pos _ hD
      linarith

/-- Concrete rational terrains used by the C4 and C6 witnesses. -/
def qTerrain : TerrainCfg ℚ := ⟨3000, 3000, 3, 3, fun n => (n : ℚ)⟩

def qTerrain2 : TerrainCfg ℚ := ⟨10, 10, 2, 2, fun n => (n : ℚ)⟩

def qTerrainC : TerrainCfg ℚ := ⟨10, 10, 2, 2, fun _ => 100⟩

theorem c4_bilinear_exact_witness :
    ((2:ℤ) ≤ qTerrain.heightDataWidth ∧ (2:ℤ) ≤ qTerrain.heightDataHeight ∧
     (0:ℤ) ≤ 2 ∧ (2:ℤ) ≤ qTerrain.heightDataWidth - 1 ∧
     (0:ℤ) ≤ 1 ∧ (1:ℤ) ≤ qTerrain.heightDataHeight - 1) ∧
    sampleHeightmap qTerrain ((2:ℚ) / ((qTerrain.heightDataWidth : ℚ) - 1))
        ((1:ℚ) / ((qTerrain.heightDataHeight : ℚ) - 1))
      = qTerrain.heightData (1 * qTerrain.heightDataWidth + 2) ∧
    sampleHeightmap qTerrain2 (1/2) (1/2)
      = (qTerrain2.heightData 0 + qTerrain2.heightData 1 + qTerrain2.heightData 2 +
          qTerrain2.heightData 3) / 4 ∧
    sampleHeightmap qTerrainC (1/3) (7/5) = 100 := by
  refine ⟨⟨by decide, by decide, by decide, by decide, by decide, by decide⟩, ?_, ?_, ?_⟩
  · exact c4_bilinear_exact.1 qTerrain 2 1 (by decide) (by decide) (by decide)
      (by decide) (by decide) (by decide)
  · exact c4_bilinear_exact.2.1 qTerrain2 rfl rfl
  · exact c4_bilinear_exact.2.2 qTerrainC (fun _ => rfl) (1/3) (7/5)

theorem c6_out_of_bounds_zero_witness :
    ((0:ℚ) < qTerrainC.terrainWidth ∧ (0:ℚ) < qTerrainC.terrainDepth ∧
     (qTerrainC.terrainWidth / 2 < |(20:ℚ)| ∨ qTerrainC.terrainDepth / 2 < |(0:ℚ)|)) ∧
    getHeightAt qTerrainC 20 0 = 0 := by
  refine ⟨⟨by norm_num [qTerrainC], by norm_num [qTerrainC], Or.inl (by norm_num [qTerrainC])⟩, ?_⟩
  exact c6_out_of_bounds_zero qTerrainC (by norm_num [qTerrainC]) (by norm_num [qTerrainC])
    20 0 (Or.inl (by norm_num [qTerrainC]))

/-! ## Boundary correction (claim C8) -/

theorem applyBoundaryForce_yaw (d : Vec3) (s : ℝ) (st : GliderState) :
    (applyBoundaryForce d s st).yaw - st.yaw
      = normAngle (atan2 d.x (-d.z) - st.yaw) * s * 0.02 := by
  show st.yaw + normAngle (atan2 d.x (-d.z) - st.yaw) * s * 0.02 - st.yaw = _
  ring

/-- Claim C8 (amended): one applyBoundaryForce call changes yaw by
normalizedDiff * strength * 0.02 with the difference normalized into
[-pi, pi] (the loop keeps -pi, so the interval is closed on the left); for a
fixed state whose normalized heading error is nonzero, increasing the
strength strictly increases the magnitude of the correction; and
checkBoundaries applies no correction at all when the glider is inside the
buffered interior. -/
theorem c8_boundary_monotonic (d : Vec3) (st : GliderState) (s1 s2 : ℝ)
    (hne : normAngle (atan2 d.x (-d.z) - st.yaw) ≠ 0)
    (h0 : 0 ≤ s1) (h12 : s1 < s2) (h21 : s2 ≤ 1) :
    |(applyBoundaryForce d s1 st).yaw - st.yaw|
      < |(applyBoundaryForce d s2 st).yaw - st.yaw| ∧
    (-Real.pi ≤ normAngle (atan2 d.x (-d.z) - st.yaw) ∧
      normAngle (atan2 d.x (-d.z) - st.yaw) ≤ Real.pi) ∧
    (∀ (b : Bounds) (st' : GliderState),
      st'.position.x - (b.maxX - 100) ≤ 0 → (b.minX + 100) - st'.position.x ≤ 0 →
      st'.position.z - (b.maxZ - 100) ≤ 0 → (b.minZ + 100) - st'.position.z ≤ 0 →
      checkBoundaries b st' = st') := by
  refine ⟨?_, normAngle_mem _, ?_⟩
  · rw [applyBoundaryForce_yaw, applyBoundaryForce_yaw, abs_mul, abs_mul, abs_mul, abs_mul]
    have hn : 0 < |normAngle (atan2 d.x (-d.z) - st.yaw)| := abs_pos.mpr hne
    have h1 : |s1| = s1 := abs_of_nonneg h0
    have h2 : |s2| = s2 := abs_of_nonneg (by linarith)
    rw [h1, h2]
    have h002 : |(0.02:ℝ)| = 0.02 := by rw [abs_of_pos]; norm_num
    rw [h002]
    nlinarith
  · intro b st' h1 h2 h3 h4
    rw [checkBoundaries, if_neg]
    push_neg
    exact ⟨max_le h1 h2, max_le h3 h4⟩

/-- A glider state at yaw 1 used to witness C8 (with direction-to-center
(0,0,-1), as produced 50 m past the z buffer at position (0,y,1450), the
target yaw is atan2(0,1) = 0 and the normalized error is -1). -/
noncomputable def yawOneState : GliderState := { initState with yaw := 1 }

theorem c8_boundary_monotonic_witness :
    (normAngle (atan2 (Vec3.mk 0 0 (-1)).x (-(Vec3.mk 0 0 (-1)).z) - yawOneState.yaw) ≠ 0 ∧
     (0:ℝ) ≤ 1/2 ∧ (1/2:ℝ) < 1 ∧ (1:ℝ) ≤ 1) ∧
    |(applyBoundaryForce (Vec3.mk 0 0 (-1)) (1/2) yawOneState).yaw - yawOneState.yaw|
      < |(applyBoundaryForce (Vec3.mk 0 0 (-1)) 1 yawOneState).yaw - yawOneState.yaw| := by
  have hyaw : yawOneState.yaw = 1 := rfl
  have hatan : atan2 (Vec3.mk 0 0 (-1)).x (-(Vec3.mk 0 0 (-1)).z) = 0 := by
    show atan2 0 (-(-1)) = 0
    rw [atan2, if_pos (by norm_num : (0:ℝ) < -(-1))]
    norm_num [Real.arctan_zero]
  have hne : normAngle (atan2 (Vec3.mk 0 0 (-1)).x (-(Vec3.mk 0 0 (-1)).z) - yawOneState.yaw)
      ≠ 0 := by
    rw [hatan, hyaw]
    have hpi := Real.pi_gt_three
    rw [normAngle_of_mem (0 - 1) (by linarith) (by linarith)]
    norm_num
  exact ⟨⟨hne, by norm_num, by norm_num, le_rfl⟩,
    (c8_boundary_monotonic (Vec3.mk 0 0 (-1)) yawOneState (1/2) 1 hne (by norm_num)
      (by norm_num) le_rfl).1⟩

/-- A glider at position (0,500,1450): 50 m past the z-axis boundary buffer
of the 5700 x 3000 terrain, with yaw 0 already pointing at the center. -/
noncomputable def alignedAtEdge : GliderState :=
  { initState with position := ⟨0, 500, 1450⟩ }

/-- Claim C8 (counterexample to the claim as stated): at a fixed position 50 m
past the boundary buffer whose direction-to-center is (0,0,-1), a glider whose
yaw already equals the target heading receives a zero yaw correction at every
strength, so increasing the strength from 1/2 to 1 does not strictly increase
the magnitude of the correction. -/
theorem c8_zero_error_counterexample :
    (applyBoundaryForce (Vec3.mk 0 0 (-1)) (1/2) alignedAtEdge).yaw - alignedAtEdge.yaw = 0 ∧
    (applyBoundaryForce (Vec3.mk 0 0 (-1)) 1 alignedAtEdge).yaw - alignedAtEdge.yaw = 0 ∧
    ¬(|(applyBoundaryForce (Vec3.mk 0 0 (-1)) (1/2) alignedAtEdge).yaw - alignedAtEdge.yaw|
      < |(applyBoundaryForce (Vec3.mk 0 0 (-1)) 1 alignedAtEdge).yaw - alignedAtEdge.yaw|) := by
  have hyaw : alignedAtEdge.yaw = 0 := rfl
  have hatan : atan2 (Vec3.mk 0 0 (-1)).x (-(Vec3.mk 0 0 (-1)).z) = 0 := by
    show atan2 0 (-(-1)) = 0
    rw [atan2, if_pos (by norm_num : (0:ℝ) < -(-1))]
    norm_num [Real.arctan_zero]
  have hzero : normAngle (atan2 (Vec3.mk 0 0 (-1)).x (-(Vec3.mk 0 0 (-1)).z)
      - alignedAtEdge.yaw) = 0 := by
    rw [hatan, hyaw, sub_zero]
    exact normAngle_of_mem 0 (neg_nonpos.mpr Real.pi_nonneg) Real.pi_nonneg
  have he1 : (applyBoundaryForce (Vec3.mk 0 0 (-1)) (1/2) alignedAtEdge).yaw
      - alignedAtEdge.yaw = 0 := by
    rw [applyBoundaryForce_yaw, hzero]; ring
  have he2 : (applyBoundaryForce (Vec3.mk 0 0 (-1)) 1 alignedAtEdge).yaw
      - alignedAtEdge.yaw = 0 := by
    rw [applyBoundaryForce_yaw, hzero]; ring
  refine ⟨he1, he2, ?_⟩
  rw [he1, he2]
  simp

/-! ## Input axes stay in [-1,1] (claim C9) -/

/-- The C9 invariant. -/
def AxesInRange (s : InputState) : Prop :=
  -1 ≤ s.pitch ∧ s.pitch ≤ 1 ∧ -1 ≤ s.roll ∧ s.roll ≤ 1

theorem applyEvent_axes (e : InputEvent) (s : InputState) (h : AxesInRange s) :
    AxesInRange (applyEvent e s) := by
  obtain ⟨h1, h2, h3, h4⟩ := h
  cases e with
  | keyDownEv k => cases k <;> exact ⟨h1, h2, h3, h4⟩
  | keyUpEv k => cases k <;> exact ⟨h1, h2, h3, h4⟩
  | touchStartEv cx cy => exact ⟨h1, h2, h3, h4⟩
  | touchMoveEv cx cy =>
    show AxesInRange (touchMove cx cy s)
    rw [touchMove]
    by_cases ht : s.touchActive = true
    · rw [if_pos ht]; exact ⟨h1, h2, h3, h4⟩
    · rw [if_neg ht]; exact ⟨h1, h2, h3, h4⟩
  | touchEndEv => exact ⟨h1, h2, h3, h4⟩
  | touchCancelEv => exact ⟨h1, h2, h3, h4⟩
  | updateEv =>
    show AxesInRange (inputUpdate s)
    rw [inputUpdate]
    by_cases ht : s.touchActive = true
    · rw [if_pos ht]
      refine ⟨le_max_left _ _, ?_, le_max_left _ _, ?_⟩ <;>
        exact max_le (by norm_num) (min_le_left _ _)
    · rw [if_neg ht]
      refine ⟨?_, ?_, ?_, ?_⟩ <;> simp only
      · by_cases hu : s.keyUp = true
        · rw [if_pos hu]; exact le_min (by linarith) (by norm_num)
        · rw [if_neg hu]
          by_cases hd : s.keyDown = true
          · rw [if_pos hd]; exact le_max_right _ _
          · rw [if_neg hd]; nlinarith
      · by_cases hu : s.keyUp = true
        · rw [if_pos hu]; exact min_le_right _ _
        · rw [if_neg hu]
          by_cases hd : s.keyDown = true
          · rw [if_pos hd]; exact max_le (by linarith) (by norm_num)
          · rw [if_neg hd]; nlinarith
      · by_cases hl : s.keyLeft = true
        · rw [if_pos hl]; exact le_max_right _ _
        · rw [if_neg hl]
          by_cases hr : s.keyRight = true
          · rw [if_pos hr]; exact le_min (by linarith) (by norm_num)
          · rw [if_neg hr]; nlinarith
      · by_cases hl : s.keyLeft = true
        · rw [if_pos hl]; exact max_le (by linarith) (by norm_num)
        · rw [if_neg hl]
          by_cases hr : s.keyRight = true
          · rw [if_pos hr]; exact min_le_right _ _
          · rw [if_neg hr]; nlinarith

theorem foldl_axes (es : List InputEvent) (s : InputState) (h : AxesInRange s) :
    AxesInRange (es.foldl (fun s e => applyEvent e s) s) := by
  induction es generalizing s with
  | nil => exact h
  | cons e es ih => exact ih _ (applyEvent_axes e s h)

/-- Claim C9: for every interleaving of key, touch and update events the
resolved pitch and roll axes stay in [-1, 1] (keyboard ramps by 0.05 toward
the limit, decays by 0.9 when idle, touch overrides with the 100 px
full-deflection clamp — all encoded in the definitions above). -/
theorem c9_axes_bounded (es : List InputEvent) :
    -1 ≤ (runEvents es).pitch ∧ (runEvents es).pitch ≤ 1 ∧
    -1 ≤ (runEvents es).roll ∧ (runEvents es).roll ≤ 1 :=
  foldl_axes es initInput ⟨by norm_num [initInput], by norm_num [initInput],
    by norm_num [initInput], by norm_num [initInput]⟩

/-! ## Yaw is not frozen while crashed (claim C10) -/

/-- A crashed glider resting 50 m past the z-axis boundary buffer, heading
yaw = 1. -/
noncomputable def crashedNearEdge : GliderState :=
  { initState with
    position := ⟨0, 100, 1450⟩
    velocity := ⟨0, 0, 0⟩
    yaw := 1
    crashed := true }

/-- Claim C10: the per-frame loop applies the boundary check after the
dynamics step regardless of the crashed flag and applyBoundaryForce has no
crashed guard, so one frame on this crashed state leaves position and
velocity untouched (update returns early) yet changes yaw from 1 to 0.99. -/
theorem c10_yaw_changes_while_crashed :
    (frame 0 0 (1/60) crashedNearEdge).position = crashedNearEdge.position ∧
    (frame 0 0 (1/60) crashedNearEdge).velocity = crashedNearEdge.velocity ∧
    (frame 0 0 (1/60) crashedNearEdge).yaw ≠ crashedNearEdge.yaw := by
  have hupd : update (1/60) (setInput 0 0 crashedNearEdge)
      = setInput 0 0 crashedNearEdge := by
    rw [update, if_pos]
    rfl
  have hposx : (setInput 0 0 crashedNearEdge).position.x = 0 := rfl
  have hposz : (setInput 0 0 crashedNearEdge).position.z = 1450 := rfl
  have hyaw : (setInput 0 0 crashedNearEdge).yaw = 1 := rfl
  have hsp : speed ⟨-(0:ℝ), 0, -1450⟩ = 1450 := by
    rw [speed]
    norm_num
    rw [show (2102500:ℝ) = 1450^2 by norm_num, Real.sqrt_sq (by norm_num)]
  have hnorm : normalize3 ⟨-(0:ℝ), 0, -1450⟩ = ⟨0, 0, -1⟩ := by
    rw [normalize3, if_neg (by rw [hsp]; norm_num), hsp, smul3]
    apply Vec3.ext <;> norm_num
  have hchk : checkBoundaries gameBounds (setInput 0 0 crashedNearEdge)
      = applyBoundaryForce ⟨0, 0, -1⟩ (1/2) (setInput 0 0 crashedNearEdge) := by
    rw [checkBoundaries]
    simp only [hposx, hposz, gameBounds]
    rw [if_pos]
    · rw [hnorm]
      norm_num
    · right
      norm_num
  have hatan : atan2 (Vec3.mk 0 0 (-1)).x (-(Vec3.mk 0 0 (-1)).z) = 0 := by
    show atan2 0 (-(-1)) = 0
    rw [atan2, if_pos (by norm_num : (0:ℝ) < -(-1))]
    norm_num [Real.arctan_zero]
  have hdiff : normAngle (atan2 (Vec3.mk 0 0 (-1)).x (-(Vec3.mk 0 0 (-1)).z)
      - (setInput 0 0 crashedNearEdge).yaw) = -1 := by
    rw [hatan, hyaw]
    have hpi := Real.pi_gt_three
    rw [normAngle_of_mem (0 - 1) (by linarith) (by linarith)]
    norm_num
  have hyaw2 : (frame 0 0 (1/60) crashedNearEdge).yaw = 1 + (-1) * (1/2) * 0.02 := by
    rw [frame, hupd, hchk]
    show (setInput 0 0 crashedNearEdge).yaw
        + normAngle (atan2 (Vec3.mk 0 0 (-1)).x (-(Vec3.mk 0 0 (-1)).z)
            - (setInput 0 0 crashedNearEdge).yaw) * (1/2) * 0.02
      = 1 + (-1) * (1/2) * 0.02
    rw [hdiff, hyaw]
  refine ⟨?_, ?_, ?_⟩
  · rw [frame, hupd, hchk]; rfl
  · rw [frame, hupd, hchk]; rfl
  · rw [hyaw2]
    show (1:ℝ) + (-1) * (1/2) * 0.02 ≠ crashedNearEdge.yaw
    have : crashedNearEdge.yaw = 1 := rfl
    rw [this]
    norm_num

end FlyingGame
